import Mathlib

/-!
# Verification of the Tegra legacy-interrupt-controller layer

Shallow embedding of `xen/arch/arm/platforms/tegra.c`: the routability
classifier, the ictlr enable-state controller, the two routing entry points
and the one-time initializer, together with a register-level model of the
Tegra legacy interrupt controller (ictlr) state they manipulate.

Machine integers are modelled as `Nat` with explicit reduction modulo `2^32`
where the C performs 32-bit unsigned arithmetic.  Memory-mapped register
writes are reified as explicit write events (`RegWrite`), so that the exact
sequence of registers a function touches is visible; a separate application
function (`applyWrite`) gives each write its hardware meaning (the ictlr's
IER_SET / IER_CLR registers are write-only bit-set / bit-clear ports, the
IEP_CLASS register is an ordinary latch).  Fatal assertion failures
(`ASSERT`, `panic`) are modelled as `Option.none`: the fatal path performs
no register write.
-/

namespace Tegra

/-- Width modulus of the C `unsigned int` / `uint32_t` arithmetic. -/
def U32 : Nat := 2 ^ 32

/-- Modelled from the spec: the local-interrupt threshold `NR_LOCAL_IRQS`
(defined in a header outside the staged sources); the spec's scenarios fix
it at 32. -/
def NR_LOCAL_IRQS : Nat := 32

/-- Modelled from the spec: `TEGRA_IRQS_PER_ICTLR`, the number of interrupt
lines each ictlr instance owns (header constant; the spec's scenarios fix
lines-per-instance at 32). -/
def TEGRA_IRQS_PER_ICTLR : Nat := 32

/-- Modelled from the spec: `TEGRA_ICTLR_COUNT`, the fixed number of ictlr
instances (header constant; the Tegra hardware exposes 6 instances).  None
of the theorems below depends on the particular value, only on instance
indices being compared against it. -/
def TEGRA_ICTLR_COUNT : Nat := 6

/-- The three per-instance ictlr registers the source writes, i.e. the
header offsets `TEGRA_ICTLR_CPU_IER_SET`, `TEGRA_ICTLR_CPU_IER_CLR` and
`TEGRA_ICTLR_CPU_IEP_CLASS`, abstracted to a selector type (the offsets are
distinct; their numeric values never matter to the code's logic). -/
inductive IctlrReg where
  | ier_set
  | ier_clr
  | iep_class
deriving DecidableEq, Repr

/-- One memory-mapped register write performed by the driver: which ictlr
instance, which of its registers, and the 32-bit value written. -/
structure RegWrite where
  ictlr_number : Nat
  reg : IctlrReg
  value : Nat
deriving DecidableEq, Repr

/-- Observable state of one ictlr instance: the latched interrupt-enable
bits (set/cleared through the write-only IER_SET / IER_CLR ports) and the
interrupt-class (FIQ vs normal IRQ) register. -/
structure IctlrInstance where
  ier : Nat
  iep_class : Nat
deriving DecidableEq, Repr

/-- State of the whole legacy-interrupt-controller block, indexed by
instance number. -/
def IctlrState : Type := Nat → IctlrInstance

/-- Hardware semantics of a single register write.  IER_SET turns on exactly
the bits of the written mask, IER_CLR turns off exactly the bits of the
written mask (both without disturbing other bits: the hardware's atomic
bit-set/bit-clear protocol), IEP_CLASS latches the written value. -/
def writeReg (inst : IctlrInstance) (reg : IctlrReg) (v : Nat) : IctlrInstance :=
  let v32 := v % U32
  match reg with
  | .ier_set => { inst with ier := (inst.ier ||| v32) % U32 }
  | .ier_clr => { inst with ier := inst.ier &&& ((U32 - 1) ^^^ v32) }
  | .iep_class => { inst with iep_class := v32 }

/-- Apply one write event to the ictlr block: only the targeted instance
changes. -/
def applyWrite (s : IctlrState) (w : RegWrite) : IctlrState :=
  fun n => if n = w.ictlr_number then writeReg (s n) w.reg w.value else s n

/-- Apply a sequence of write events in order. -/
def applyWrites (s : IctlrState) (ws : List RegWrite) : IctlrState :=
  ws.foldl applyWrite s

/-- A device-tree node, as far as this driver looks at one: its identity
(modelling pointer identity of `struct dt_device_node *`) and its
"compatible" property, a list of compatibility strings. -/
structure dt_device_node where
  node_id : Nat
  compatible : List String
deriving DecidableEq, Repr

/-- Modelled from the spec: `dt_device_is_compatible(dev, s)` (device-tree
infrastructure outside the staged sources) — exact-match membership of a
compatibility string in the node's compatible list. -/
def dt_device_is_compatible (dev : dt_device_node) (s : String) : Bool :=
  dev.compatible.contains s

/-- A raw interrupt descriptor `struct dt_raw_irq`, of which this driver
reads only the originating controller. -/
structure dt_raw_irq where
  controller : dt_device_node
deriving DecidableEq, Repr

/-- Source array `tegra_interrupt_compat`: the allow-list of legacy interrupt controllers
that can be used to route Tegra interrupts. -/
def tegra_interrupt_compat : List String :=
  ["nvidia,tegra124-ictlr", "nvidia,tegra210-ictlr"]

/-- Source function `tegra_irq_belongs_to_ictlr`: true iff the IRQ's controller is
compatible with one of the entries of `tegra_interrupt_compat` (the C scans
the array in order and returns at the first match). -/
def tegra_irq_belongs_to_ictlr (rirq : dt_raw_irq) : Bool :=
  tegra_interrupt_compat.any fun s => dt_device_is_compatible rirq.controller s

/-- Source function `tegra_irq_is_routable`: true iff the IRQ connects directly to the
registered primary interrupt controller (`dt_interrupt_controller`, passed
here by its node identity), or belongs to a supported legacy interrupt
controller. -/
def tegra_irq_is_routable (dt_interrupt_controller_id : Nat) (rirq : dt_raw_irq) : Bool :=
  if rirq.controller.node_id = dt_interrupt_controller_id then true
  else if tegra_irq_belongs_to_ictlr rirq then true
  else false

/-- Source function `tegra_ictlr_set_interrupt_enable(irq, enabled)`.  Inputs: whether
`tegra_ictlr_base` is non-NULL (the window was mapped), the global IRQ
number (a 32-bit unsigned value) and the enable flag.  The C computes
`register_number` (SET when enabling, CLR when disabling),
`ictlr_irq = irq - NR_LOCAL_IRQS` (32-bit wrap-around subtraction),
`ictlr_number = ictlr_irq / TEGRA_IRQS_PER_ICTLR` and
`mask = BIT(ictlr_irq % TEGRA_IRQS_PER_ICTLR)`, then ASSERTs its three
preconditions, then performs the single `writel`.  `none` models an ASSERT
firing (fatal, before the write); `some w` is the one write performed. -/
def tegra_ictlr_set_interrupt_enable (tegra_ictlr_base_mapped : Bool)
    (irq : Nat) (enabled : Bool) : Option RegWrite :=
  let register_number := if enabled then IctlrReg.ier_set else IctlrReg.ier_clr
  let ictlr_irq := (irq + (U32 - NR_LOCAL_IRQS)) % U32
  let ictlr_number := ictlr_irq / TEGRA_IRQS_PER_ICTLR
  let mask := 2 ^ (ictlr_irq % TEGRA_IRQS_PER_ICTLR)
  if tegra_ictlr_base_mapped
      && decide (ictlr_number < TEGRA_ICTLR_COUNT)
      && decide (NR_LOCAL_IRQS ≤ irq) then
    some ⟨ictlr_number, register_number, mask⟩
  else
    none

/-- Observable events of a routing call, in program order: the delegation to
the GIC (the PIC collaborator), the error log on a failed guest binding, a
memory-mapped ictlr write, or a fatal assertion. -/
inductive Event where
  | gic_to_xen (irq priority : Nat)
  | gic_to_guest (is_hwdom : Bool) (virq irq priority : Nat)
  | log_guest_route_failure (irq : Nat) (rc : Int)
  | ictlr_write (w : RegWrite)
  | fatal
deriving DecidableEq, Repr

/-- Apply the ictlr writes of an event trace to the ictlr block (GIC and
log events do not touch ictlr state). -/
def applyEvents (s : IctlrState) (es : List Event) : IctlrState :=
  es.foldl (fun st e =>
    match e with
    | .ictlr_write w => applyWrite st w
    | _ => st) s

/-- Source function `tegra_route_irq_to_guest(d, virq, desc, priority)`.  The GIC binding's
result `gic_rc` (the value `gic_route_irq_to_guest` returns) and the target
domain's `is_hardware_domain(d)` classification are inputs from the PIC and
domain collaborators.  Returns the C function's return value together with
the trace of its observable events: delegate to the GIC; on failure log and
return `rc` at once; for a local IRQ return; otherwise enable the ictlr bit
iff the domain is not the hardware domain. -/
def tegra_route_irq_to_guest (gic_rc : Int) (d_is_hwdom : Bool)
    (tegra_ictlr_base_mapped : Bool) (virq desc_irq priority : Nat) :
    Int × List Event :=
  let bind := Event.gic_to_guest d_is_hwdom virq desc_irq priority
  if gic_rc ≠ 0 then
    (gic_rc, [bind, .log_guest_route_failure desc_irq gic_rc])
  else if desc_irq < NR_LOCAL_IRQS then
    (gic_rc, [bind])
  else
    match tegra_ictlr_set_interrupt_enable tegra_ictlr_base_mapped desc_irq (!d_is_hwdom) with
    | some w => (gic_rc, [bind, .ictlr_write w])
    | none => (gic_rc, [bind, .fatal])

/-- Source function `tegra_route_irq_to_xen(desc, priority)`: delegate to the GIC (no
failure surfaced), return at once for a local IRQ, otherwise
unconditionally enable the interrupt in the ictlr. -/
def tegra_route_irq_to_xen (tegra_ictlr_base_mapped : Bool)
    (desc_irq priority : Nat) : List Event :=
  Event.gic_to_xen desc_irq priority ::
    (if desc_irq < NR_LOCAL_IRQS then
      []
    else
      match tegra_ictlr_set_interrupt_enable tegra_ictlr_base_mapped desc_irq true with
      | some w => [Event.ictlr_write w]
      | none => [Event.fatal])

/-- The per-instance reset writes of the initializer's loop body: all-ones
to the CLR register, zero to the CLASS register of instance `i`. -/
def tegra_ictlr_init_writes (i : Nat) : List RegWrite :=
  [⟨i, .ier_clr, U32 - 1⟩, ⟨i, .iep_class, 0⟩]

/-- Source function `tegra_initialize_legacy_interrupt_controller()`: maps the ictlr window
(`map_ok` is whether `ioremap_nocache` succeeded); on failure `panic` —
modelled as `none`, no write.  On success, for every instance in order,
write `~0` to its IER_CLR register and `0` to its IEP_CLASS register, and
return 0. -/
def tegra_initialize_legacy_interrupt_controller (map_ok : Bool) :
    Option (Int × List RegWrite) :=
  if map_ok then
    some (0, (List.range TEGRA_ICTLR_COUNT).flatMap tegra_ictlr_init_writes)
  else
    none

/-- A sequence of routing calls, for stating frame properties over arbitrary
interleavings of the two routing entry points. -/
inductive RouteCall where
  | to_xen (mapped : Bool) (irq priority : Nat)
  | to_guest (gic_rc : Int) (is_hwdom mapped : Bool) (virq irq priority : Nat)
deriving DecidableEq, Repr

/-- The event trace of one routing call. -/
def routeTrace : RouteCall → List Event
  | .to_xen m irq p => tegra_route_irq_to_xen m irq p
  | .to_guest rc hw m v irq p => (tegra_route_irq_to_guest rc hw m v irq p).2

/-- Run a sequence of routing calls against an ictlr state. -/
def runRouting (s : IctlrState) (calls : List RouteCall) : IctlrState :=
  calls.foldl (fun st c => applyEvents st (routeTrace c)) s

/-- The ictlr state after a successful `tegra_ictlr_set_interrupt_enable`
call (unchanged when the call hits the fatal path). -/
def setEnableState (s : IctlrState) (irq : Nat) (enabled : Bool) : IctlrState :=
  Option.elim (tegra_ictlr_set_interrupt_enable true irq enabled) s (applyWrite s)

/-! ## Helper lemmas -/

lemma two_pow_lt_U32 {b : Nat} (hb : b < 32) : 2 ^ b < U32 := by
  have h : (2 : Nat) ^ b < 2 ^ 32 := Nat.pow_lt_pow_right (by norm_num) hb
  simpa [U32] using h

lemma two_pow_mod_U32 {b : Nat} (hb : b < 32) : 2 ^ b % U32 = 2 ^ b :=
  Nat.mod_eq_of_lt (two_pow_lt_U32 hb)

lemma applyWrite_self (s : IctlrState) (w : RegWrite) :
    applyWrite s w w.ictlr_number = writeReg (s w.ictlr_number) w.reg w.value := by
  simp [applyWrite]

lemma applyWrite_other (s : IctlrState) (w : RegWrite) (n : Nat)
    (h : n ≠ w.ictlr_number) : applyWrite s w n = s n := by
  simp [applyWrite, h]

lemma applyEvents_guest_trace (s : IctlrState) (hw : Bool) (virq irq p : Nat)
    (w : RegWrite) :
    applyEvents s [Event.gic_to_guest hw virq irq p, Event.ictlr_write w] =
      applyWrite s w := rfl

lemma applyEvents_xen_trace (s : IctlrState) (irq p : Nat) (w : RegWrite) :
    applyEvents s [Event.gic_to_xen irq p, Event.ictlr_write w] =
      applyWrite s w := rfl

/-- A SET write of the single-bit mask `2 ^ b` turns bit `b` on. -/
lemma writeReg_set_testBit (inst : IctlrInstance) (b : Nat) (hb : b < 32) :
    (writeReg inst .ier_set (2 ^ b)).ier.testBit b = true := by
  show ((inst.ier ||| 2 ^ b % U32) % U32).testBit b = true
  rw [two_pow_mod_U32 hb]
  rw [show U32 = 2 ^ 32 from rfl, Nat.testBit_mod_two_pow, Nat.testBit_or]
  simp [hb, Nat.testBit_two_pow]

/-- A CLR write of the single-bit mask `2 ^ b` turns bit `b` off. -/
lemma writeReg_clr_testBit (inst : IctlrInstance) (b : Nat) (hb : b < 32) :
    (writeReg inst .ier_clr (2 ^ b)).ier.testBit b = false := by
  show (inst.ier &&& ((U32 - 1) ^^^ 2 ^ b % U32)).testBit b = false
  rw [two_pow_mod_U32 hb]
  rw [show U32 - 1 = 2 ^ 32 - 1 from rfl, Nat.testBit_and, Nat.testBit_xor,
    Nat.testBit_two_pow_sub_one, Nat.testBit_two_pow]
  simp [hb]

/-- A SET write of the mask `2 ^ b` leaves every bit of the register other
than `b` (within the 32-bit width) unchanged. -/
lemma writeReg_set_testBit_other (inst : IctlrInstance) (b i : Nat) (hb : b < 32)
    (hi : i < 32) (hne : i ≠ b) :
    (writeReg inst .ier_set (2 ^ b)).ier.testBit i = inst.ier.testBit i := by
  show ((inst.ier ||| 2 ^ b % U32) % U32).testBit i = inst.ier.testBit i
  rw [two_pow_mod_U32 hb]
  rw [show U32 = 2 ^ 32 from rfl, Nat.testBit_mod_two_pow, Nat.testBit_or]
  simp [hi, Nat.testBit_two_pow, hne.symm]

/-- A CLR write of the mask `2 ^ b` leaves every bit of the register other
than `b` (within the 32-bit width) unchanged. -/
lemma writeReg_clr_testBit_other (inst : IctlrInstance) (b i : Nat) (hb : b < 32)
    (hi : i < 32) (hne : i ≠ b) :
    (writeReg inst .ier_clr (2 ^ b)).ier.testBit i = inst.ier.testBit i := by
  show (inst.ier &&& ((U32 - 1) ^^^ 2 ^ b % U32)).testBit i = inst.ier.testBit i
  rw [two_pow_mod_U32 hb]
  rw [show U32 - 1 = 2 ^ 32 - 1 from rfl, Nat.testBit_and, Nat.testBit_xor,
    Nat.testBit_two_pow_sub_one, Nat.testBit_two_pow]
  simp [hi, hne.symm]

/-- On an in-range, above-threshold IRQ the enable-state controller performs
exactly one single-bit write: SET when enabling, CLR when disabling. -/
lemma set_enable_eq (irq : Nat) (enabled : Bool)
    (h32 : NR_LOCAL_IRQS ≤ irq) (hU : irq < U32)
    (hcount : (irq - NR_LOCAL_IRQS) / TEGRA_IRQS_PER_ICTLR < TEGRA_ICTLR_COUNT) :
    tegra_ictlr_set_interrupt_enable true irq enabled =
      some ⟨(irq - NR_LOCAL_IRQS) / TEGRA_IRQS_PER_ICTLR,
            if enabled then IctlrReg.ier_set else IctlrReg.ier_clr,
            2 ^ ((irq - NR_LOCAL_IRQS) % TEGRA_IRQS_PER_ICTLR)⟩ := by
  have hNU : NR_LOCAL_IRQS ≤ U32 := by norm_num [NR_LOCAL_IRQS, U32]
  have hsub : irq - NR_LOCAL_IRQS < U32 := lt_of_le_of_lt (Nat.sub_le _ _) hU
  have key : (irq + (U32 - NR_LOCAL_IRQS)) % U32 = irq - NR_LOCAL_IRQS := by
    have h1 : irq + (U32 - NR_LOCAL_IRQS) = (irq - NR_LOCAL_IRQS) + U32 := by omega
    rw [h1, Nat.add_mod_right, Nat.mod_eq_of_lt hsub]
  unfold tegra_ictlr_set_interrupt_enable
  simp only [key]
  simp [hcount, h32]

lemma set_enable_eq_true (irq : Nat)
    (h32 : NR_LOCAL_IRQS ≤ irq) (hU : irq < U32)
    (hcount : (irq - NR_LOCAL_IRQS) / TEGRA_IRQS_PER_ICTLR < TEGRA_ICTLR_COUNT) :
    tegra_ictlr_set_interrupt_enable true irq true =
      some ⟨(irq - NR_LOCAL_IRQS) / TEGRA_IRQS_PER_ICTLR, IctlrReg.ier_set,
            2 ^ ((irq - NR_LOCAL_IRQS) % TEGRA_IRQS_PER_ICTLR)⟩ := by
  simpa using set_enable_eq irq true h32 hU hcount

lemma set_enable_eq_false (irq : Nat)
    (h32 : NR_LOCAL_IRQS ≤ irq) (hU : irq < U32)
    (hcount : (irq - NR_LOCAL_IRQS) / TEGRA_IRQS_PER_ICTLR < TEGRA_ICTLR_COUNT) :
    tegra_ictlr_set_interrupt_enable true irq false =
      some ⟨(irq - NR_LOCAL_IRQS) / TEGRA_IRQS_PER_ICTLR, IctlrReg.ier_clr,
            2 ^ ((irq - NR_LOCAL_IRQS) % TEGRA_IRQS_PER_ICTLR)⟩ := by
  simpa using set_enable_eq irq false h32 hU hcount

lemma setEnableState_some (s : IctlrState) (irq : Nat) (e : Bool) (w : RegWrite)
    (h : tegra_ictlr_set_interrupt_enable true irq e = some w) :
    setEnableState s irq e = applyWrite s w := by
  unfold setEnableState
  rw [h]
  rfl

lemma applyWrite_apply_self (s : IctlrState) (i : Nat) (r : IctlrReg) (v : Nat) :
    applyWrite s ⟨i, r, v⟩ i = writeReg (s i) r v := by
  simp [applyWrite]

lemma applyWrite_apply_other (s : IctlrState) (i : Nat) (r : IctlrReg) (v : Nat)
    (n : Nat) (h : n ≠ i) : applyWrite s ⟨i, r, v⟩ n = s n := by
  simp [applyWrite, h]

lemma or_mod_idem (a v : Nat) :
    (((a ||| v % U32) % U32) ||| v % U32) % U32 = (a ||| v % U32) % U32 := by
  apply Nat.eq_of_testBit_eq
  intro i
  rw [show U32 = 2 ^ 32 from rfl]
  simp only [Nat.testBit_mod_two_pow, Nat.testBit_or]
  by_cases hd : i < 32 <;>
    cases ha : Nat.testBit a i <;>
      cases hv : Nat.testBit (v % 2 ^ 32) i <;> simp [hd, ha, hv]

lemma and_mask_idem (a v : Nat) : (a &&& v) &&& v = a &&& v := by
  apply Nat.eq_of_testBit_eq
  intro i
  simp only [Nat.testBit_and]
  cases ha : Nat.testBit a i <;> cases hv : Nat.testBit v i <;> simp

/-- Writing the same value to the same register twice has the effect of
writing it once. -/
lemma writeReg_idem (x : IctlrInstance) (r : IctlrReg) (v : Nat) :
    writeReg (writeReg x r v) r v = writeReg x r v := by
  cases r
  · show (⟨(((x.ier ||| v % U32) % U32) ||| v % U32) % U32, x.iep_class⟩ : IctlrInstance) =
      ⟨(x.ier ||| v % U32) % U32, x.iep_class⟩
    rw [or_mod_idem]
  · show (⟨(x.ier &&& ((U32 - 1) ^^^ v % U32)) &&& ((U32 - 1) ^^^ v % U32),
        x.iep_class⟩ : IctlrInstance) = ⟨x.ier &&& ((U32 - 1) ^^^ v % U32), x.iep_class⟩
    rw [and_mask_idem]
  · rfl

lemma applyWrite_idem (s : IctlrState) (w : RegWrite) :
    applyWrite (applyWrite s w) w = applyWrite s w := by
  funext n
  by_cases hn : n = w.ictlr_number
  · subst hn
    rw [applyWrite_self, applyWrite_self, writeReg_idem]
  · rw [applyWrite_other _ _ _ hn, applyWrite_other _ _ _ hn]

/-- A CLR write of all-ones zeroes the enable register. -/
lemma writeReg_clr_allones (x : IctlrInstance) :
    writeReg x .ier_clr (U32 - 1) = ⟨0, x.iep_class⟩ := by
  show (⟨x.ier &&& ((U32 - 1) ^^^ (U32 - 1) % U32), x.iep_class⟩ : IctlrInstance) = _
  rw [Nat.mod_eq_of_lt (by norm_num [U32]), Nat.xor_self, Nat.and_zero]

/-- Writing zero to the class register zeroes it and keeps the enable bits. -/
lemma writeReg_class_zero (x : IctlrInstance) :
    writeReg x .iep_class 0 = ⟨x.ier, 0⟩ := by
  show (⟨x.ier, 0 % U32⟩ : IctlrInstance) = _
  rw [Nat.zero_mod]

/-- Effect of the initializer's first `n` loop iterations: every instance
below `n` is fully reset, every other instance is untouched. -/
lemma init_writes_apply (n : Nat) (s : IctlrState) (i : Nat) :
    applyWrites s ((List.range n).flatMap tegra_ictlr_init_writes) i
      = if i < n then ⟨0, 0⟩ else s i := by
  induction n generalizing s with
  | zero => simp [applyWrites]
  | succ k ih =>
    rw [List.range_succ, List.flatMap_append]
    unfold applyWrites
    rw [List.foldl_append]
    have hmid := ih s
    unfold applyWrites at hmid
    by_cases hi : i = k
    · subst hi
      show (applyWrite (applyWrite _ ⟨i, .ier_clr, U32 - 1⟩) ⟨i, .iep_class, 0⟩) i = _
      rw [applyWrite_apply_self, applyWrite_apply_self, writeReg_clr_allones,
        writeReg_class_zero]
      simp
    · show (applyWrite (applyWrite _ ⟨k, .ier_clr, U32 - 1⟩) ⟨k, .iep_class, 0⟩) i = _
      rw [applyWrite_apply_other _ _ _ _ _ hi, applyWrite_apply_other _ _ _ _ _ hi, hmid]
      have hiff : (i < k + 1) ↔ (i < k) := by omega
      by_cases h2 : i < k
      · rw [if_pos h2, if_pos (hiff.mpr h2)]
      · rw [if_neg h2, if_neg (fun h => h2 (hiff.mp h))]

/-- A successful `tegra_ictlr_set_interrupt_enable` call never writes the
interrupt-class register. -/
lemma set_enable_reg_ne_class (m : Bool) (irq : Nat) (e : Bool) (w : RegWrite)
    (h : tegra_ictlr_set_interrupt_enable m irq e = some w) :
    w.reg ≠ .iep_class := by
  simp only [tegra_ictlr_set_interrupt_enable] at h
  split at h
  · injection h with h'
    subst h'
    cases e <;> simp
  · exact Option.noConfusion h

/-- A write to a register other than IEP_CLASS leaves every instance's class
register unchanged. -/
lemma applyWrite_class (s : IctlrState) (w : RegWrite) (hreg : w.reg ≠ .iep_class)
    (n : Nat) : (applyWrite s w n).iep_class = (s n).iep_class := by
  by_cases hn : n = w.ictlr_number
  · subst hn
    rw [applyWrite_self]
    cases hr : w.reg
    · rfl
    · rfl
    · exact absurd hr hreg
  · rw [applyWrite_other _ _ _ hn]

/-- Neither routing entry point ever touches an interrupt-class register. -/
lemma routeTrace_class (c : RouteCall) (s : IctlrState) (n : Nat) :
    (applyEvents s (routeTrace c) n).iep_class = (s n).iep_class := by
  cases c with
  | to_xen m irq p =>
    simp only [routeTrace]
    unfold tegra_route_irq_to_xen
    by_cases hl : irq < NR_LOCAL_IRQS
    · rw [if_pos hl]
      rfl
    · rw [if_neg hl]
      cases h : tegra_ictlr_set_interrupt_enable m irq true with
      | some w =>
        show (applyWrite s w n).iep_class = (s n).iep_class
        exact applyWrite_class s w (set_enable_reg_ne_class m irq true w h) n
      | none => rfl
  | to_guest rc hw m v irq p =>
    simp only [routeTrace]
    unfold tegra_route_irq_to_guest
    by_cases hrc : rc ≠ 0
    · rw [if_pos hrc]
      rfl
    · rw [if_neg hrc]
      by_cases hl : irq < NR_LOCAL_IRQS
      · rw [if_pos hl]
        rfl
      · rw [if_neg hl]
        cases h : tegra_ictlr_set_interrupt_enable m irq (!hw) with
        | some w =>
          show (applyWrite s w n).iep_class = (s n).iep_class
          exact applyWrite_class s w (set_enable_reg_ne_class m irq (!hw) w h) n
        | none => rfl

end Tegra

/-! ## The claims -/

namespace Tegra

/-- C2: `tegra_irq_is_routable` returns true exactly when the descriptor's
controller is the registered primary interrupt controller or its
compatibility list contains "nvidia,tegra124-ictlr" or
"nvidia,tegra210-ictlr"; the classification is a total Boolean function
(pure, never errs), and scanning the allow-list in any other order gives
the same answer. -/
theorem irq_is_routable_spec (dt_interrupt_controller_id : Nat)
    (rirq : dt_raw_irq) (l : List String)
    (hperm : l.Perm tegra_interrupt_compat) :
    (tegra_irq_is_routable dt_interrupt_controller_id rirq =
      (decide (rirq.controller.node_id = dt_interrupt_controller_id)
        || rirq.controller.compatible.contains "nvidia,tegra124-ictlr"
        || rirq.controller.compatible.contains "nvidia,tegra210-ictlr"))
    ∧ (l.any fun s => dt_device_is_compatible rirq.controller s)
        = tegra_irq_belongs_to_ictlr rirq := by
  constructor
  · unfold tegra_irq_is_routable tegra_irq_belongs_to_ictlr
      tegra_interrupt_compat dt_device_is_compatible
    by_cases h : rirq.controller.node_id = dt_interrupt_controller_id <;>
      simp [h, Bool.or_assoc]
  · unfold tegra_irq_belongs_to_ictlr
    simp [List.any_eq, hperm.mem_iff]

/-- C2 witness: a controller that is not the primary one but carries the
"nvidia,tegra210-ictlr" compatibility string is routable, and the reversed
allow-list classifies it the same way. -/
theorem irq_is_routable_spec_witness :
    (tegra_irq_is_routable 0 ⟨⟨1, ["foo", "nvidia,tegra210-ictlr"]⟩⟩ =
      (decide ((1 : Nat) = 0)
        || (["foo", "nvidia,tegra210-ictlr"] : List String).contains "nvidia,tegra124-ictlr"
        || (["foo", "nvidia,tegra210-ictlr"] : List String).contains "nvidia,tegra210-ictlr"))
    ∧ ((["nvidia,tegra210-ictlr", "nvidia,tegra124-ictlr"] : List String).any
          fun s => dt_device_is_compatible ⟨1, ["foo", "nvidia,tegra210-ictlr"]⟩ s)
        = tegra_irq_belongs_to_ictlr ⟨⟨1, ["foo", "nvidia,tegra210-ictlr"]⟩⟩ :=
  irq_is_routable_spec 0 ⟨⟨1, ["foo", "nvidia,tegra210-ictlr"]⟩⟩
    ["nvidia,tegra210-ictlr", "nvidia,tegra124-ictlr"] (by decide)

/-- C3: for a global IRQ at or above the threshold (whose derived instance
is in range), `tegra_ictlr_set_interrupt_enable` computes
`instance = (irq − threshold) / lines-per-instance` and
`bit = (irq − threshold) % lines-per-instance`, and performs exactly one
write — of the single-bit mask `2 ^ bit` — to that instance's SET register
when enabling and CLR register when disabling, reading nothing. -/
theorem set_enable_single_bit_write (irq : Nat) (enabled : Bool)
    (h32 : NR_LOCAL_IRQS ≤ irq) (hU : irq < U32)
    (hcount : (irq - NR_LOCAL_IRQS) / TEGRA_IRQS_PER_ICTLR < TEGRA_ICTLR_COUNT) :
    tegra_ictlr_set_interrupt_enable true irq enabled =
      some ⟨(irq - NR_LOCAL_IRQS) / TEGRA_IRQS_PER_ICTLR,
            if enabled then IctlrReg.ier_set else IctlrReg.ier_clr,
            2 ^ ((irq - NR_LOCAL_IRQS) % TEGRA_IRQS_PER_ICTLR)⟩ :=
  set_enable_eq irq enabled h32 hU hcount

/-- C3 witness: IRQ 50 (threshold 32, 32 lines per instance) is instance 0,
bit 18; enabling writes the mask `2 ^ 18` to instance 0's SET register. -/
theorem set_enable_single_bit_write_witness :
    tegra_ictlr_set_interrupt_enable true 50 true =
      some ⟨(50 - NR_LOCAL_IRQS) / TEGRA_IRQS_PER_ICTLR,
            if true then IctlrReg.ier_set else IctlrReg.ier_clr,
            2 ^ ((50 - NR_LOCAL_IRQS) % TEGRA_IRQS_PER_ICTLR)⟩ :=
  set_enable_single_bit_write 50 true (by decide) (by decide) (by decide)

/-- C6: each precondition violation — unmapped register window, IRQ below
the local-interrupt threshold, or a derived instance index at or beyond the
instance count — makes `tegra_ictlr_set_interrupt_enable` take the fatal
assertion path (`none`), which performs no register write. -/
theorem set_enable_assert_fatal (mapped : Bool) (irq : Nat) (enabled : Bool)
    (hviol : mapped = false ∨ irq < NR_LOCAL_IRQS ∨
      TEGRA_ICTLR_COUNT ≤ (irq + (U32 - NR_LOCAL_IRQS)) % U32 / TEGRA_IRQS_PER_ICTLR) :
    tegra_ictlr_set_interrupt_enable mapped irq enabled = none := by
  unfold tegra_ictlr_set_interrupt_enable
  rcases hviol with h | h | h
  · simp [h]
  · simp [Nat.not_le.mpr h]
  · simp [Nat.not_lt.mpr h]

/-- C4: `tegra_route_irq_to_xen` first delegates to the GIC (the GIC event
heads the trace), returns at once — touching no ictlr register — for an IRQ
below the local-interrupt threshold, and otherwise unconditionally enables
the interrupt's bit in the ictlr after the GIC binding. -/
theorem route_to_xen_spec (irq priority : Nat) :
    (irq < NR_LOCAL_IRQS →
      tegra_route_irq_to_xen true irq priority = [Event.gic_to_xen irq priority])
    ∧ (NR_LOCAL_IRQS ≤ irq → irq < U32 →
        (irq - NR_LOCAL_IRQS) / TEGRA_IRQS_PER_ICTLR < TEGRA_ICTLR_COUNT →
        tegra_route_irq_to_xen true irq priority =
          [Event.gic_to_xen irq priority,
           Event.ictlr_write ⟨(irq - NR_LOCAL_IRQS) / TEGRA_IRQS_PER_ICTLR,
             IctlrReg.ier_set,
             2 ^ ((irq - NR_LOCAL_IRQS) % TEGRA_IRQS_PER_ICTLR)⟩]) := by
  constructor
  · intro h
    unfold tegra_route_irq_to_xen
    simp [h]
  · intro h32 hU hcount
    unfold tegra_route_irq_to_xen
    rw [set_enable_eq irq true h32 hU hcount]
    simp [Nat.not_lt.mpr h32]

/-- C4 witness: IRQ 10 (local) produces only the GIC delegation; IRQ 50
produces the GIC delegation followed by the single SET write to instance 0,
bit 18. -/
theorem route_to_xen_spec_witness :
    (tegra_route_irq_to_xen true 10 7 = [Event.gic_to_xen 10 7])
    ∧ (tegra_route_irq_to_xen true 50 7 =
        [Event.gic_to_xen 50 7,
         Event.ictlr_write ⟨0, IctlrReg.ier_set, 2 ^ 18⟩]) :=
  ⟨(route_to_xen_spec 10 7).1 (by decide),
   (route_to_xen_spec 50 7).2 (by decide) (by decide) (by decide)⟩

/-- C5: when the GIC binding fails (`gic_rc ≠ 0`), `tegra_route_irq_to_guest`
logs the IRQ number with the numeric cause, returns that cause unchanged,
and performs no ictlr write: applying its trace to any ictlr state leaves
the state exactly as it was. -/
theorem route_to_guest_failure_propagates (gic_rc : Int) (d_is_hwdom mapped : Bool)
    (virq irq priority : Nat) (s : IctlrState) (hrc : gic_rc ≠ 0) :
    tegra_route_irq_to_guest gic_rc d_is_hwdom mapped virq irq priority =
      (gic_rc, [Event.gic_to_guest d_is_hwdom virq irq priority,
                Event.log_guest_route_failure irq gic_rc])
    ∧ applyEvents s (tegra_route_irq_to_guest gic_rc d_is_hwdom mapped virq irq priority).2
        = s := by
  have h1 : tegra_route_irq_to_guest gic_rc d_is_hwdom mapped virq irq priority =
      (gic_rc, [Event.gic_to_guest d_is_hwdom virq irq priority,
                Event.log_guest_route_failure irq gic_rc]) := by
    unfold tegra_route_irq_to_guest
    simp [hrc]
  exact ⟨h1, by rw [h1]; rfl⟩

/-- C5 witness: a failed GIC binding with cause −22 for IRQ 50 is returned
unchanged and leaves the all-zero ictlr state untouched. -/
theorem route_to_guest_failure_propagates_witness :
    tegra_route_irq_to_guest (-22) false true 1 50 7 =
      ((-22 : Int), [Event.gic_to_guest false 1 50 7,
                     Event.log_guest_route_failure 50 (-22)])
    ∧ applyEvents (fun _ => ⟨0, 0⟩) (tegra_route_irq_to_guest (-22) false true 1 50 7).2
        = (fun _ => ⟨0, 0⟩) :=
  route_to_guest_failure_propagates (-22) false true 1 50 7 (fun _ => ⟨0, 0⟩) (by decide)

/-- C1: when the GIC binding succeeds and the IRQ is at or above the
threshold, `tegra_route_irq_to_guest` performs (after the GIC delegation)
exactly one single-bit ictlr write — CLR for the hardware domain, SET for
any other domain — so the interrupt's ictlr enable bit ends up equal to
the negation of "the target is the hardware domain". -/
theorem route_to_guest_hwdom_negation (s : IctlrState) (d_is_hwdom : Bool)
    (virq irq priority : Nat)
    (h32 : NR_LOCAL_IRQS ≤ irq) (hU : irq < U32)
    (hcount : (irq - NR_LOCAL_IRQS) / TEGRA_IRQS_PER_ICTLR < TEGRA_ICTLR_COUNT) :
    (tegra_route_irq_to_guest 0 d_is_hwdom true virq irq priority).2 =
      [Event.gic_to_guest d_is_hwdom virq irq priority,
       Event.ictlr_write ⟨(irq - NR_LOCAL_IRQS) / TEGRA_IRQS_PER_ICTLR,
         if d_is_hwdom then IctlrReg.ier_clr else IctlrReg.ier_set,
         2 ^ ((irq - NR_LOCAL_IRQS) % TEGRA_IRQS_PER_ICTLR)⟩]
    ∧ ((applyEvents s (tegra_route_irq_to_guest 0 d_is_hwdom true virq irq priority).2)
          ((irq - NR_LOCAL_IRQS) / TEGRA_IRQS_PER_ICTLR)).ier.testBit
            ((irq - NR_LOCAL_IRQS) % TEGRA_IRQS_PER_ICTLR) = !d_is_hwdom := by
  have hbit : (irq - NR_LOCAL_IRQS) % TEGRA_IRQS_PER_ICTLR < 32 :=
    Nat.mod_lt _ (by norm_num [TEGRA_IRQS_PER_ICTLR])
  have htr : (tegra_route_irq_to_guest 0 d_is_hwdom true virq irq priority).2 =
      [Event.gic_to_guest d_is_hwdom virq irq priority,
       Event.ictlr_write ⟨(irq - NR_LOCAL_IRQS) / TEGRA_IRQS_PER_ICTLR,
         if d_is_hwdom then IctlrReg.ier_clr else IctlrReg.ier_set,
         2 ^ ((irq - NR_LOCAL_IRQS) % TEGRA_IRQS_PER_ICTLR)⟩] := by
    unfold tegra_route_irq_to_guest
    rw [set_enable_eq irq (!d_is_hwdom) h32 hU hcount]
    cases d_is_hwdom <;> simp [Nat.not_lt.mpr h32]
  refine ⟨htr, ?_⟩
  rw [htr, applyEvents_guest_trace]
  show (applyWrite s
      ⟨(irq - NR_LOCAL_IRQS) / TEGRA_IRQS_PER_ICTLR,
       if d_is_hwdom then IctlrReg.ier_clr else IctlrReg.ier_set,
       2 ^ ((irq - NR_LOCAL_IRQS) % TEGRA_IRQS_PER_ICTLR)⟩
      (RegWrite.ictlr_number
        ⟨(irq - NR_LOCAL_IRQS) / TEGRA_IRQS_PER_ICTLR,
         if d_is_hwdom then IctlrReg.ier_clr else IctlrReg.ier_set,
         2 ^ ((irq - NR_LOCAL_IRQS) % TEGRA_IRQS_PER_ICTLR)⟩)).ier.testBit
      ((irq - NR_LOCAL_IRQS) % TEGRA_IRQS_PER_ICTLR) = !d_is_hwdom
  rw [applyWrite_self]
  cases d_is_hwdom
  · exact writeReg_set_testBit _ _ hbit
  · exact writeReg_clr_testBit _ _ hbit

/-- C1 witness: routing IRQ 50 (instance 0, bit 18) to the hardware domain
leaves the bit clear; routing it to a non-hardware guest sets it. -/
theorem route_to_guest_hwdom_negation_witness :
    ((applyEvents (fun _ => ⟨2 ^ 18, 0⟩)
        (tegra_route_irq_to_guest 0 true true 1 50 7).2 0).ier.testBit 18 = false)
    ∧ ((applyEvents (fun _ => ⟨0, 0⟩)
        (tegra_route_irq_to_guest 0 false true 1 50 7).2 0).ier.testBit 18 = true) :=
  ⟨(route_to_guest_hwdom_negation (fun _ => ⟨2 ^ 18, 0⟩) true 1 50 7
      (by decide) (by decide) (by decide)).2,
   (route_to_guest_hwdom_negation (fun _ => ⟨0, 0⟩) false 1 50 7
      (by decide) (by decide) (by decide)).2⟩

/-- C7: initialization panics (fatally, performing no write) when the
register-window mapping fails; on success it writes all-ones to the CLR
register and zero to the CLASS register of every instance, so that applying
its writes to any starting state leaves every instance with all enable bits
clear and all lines classed as normal interrupts. -/
theorem initialize_resets_every_instance :
    tegra_initialize_legacy_interrupt_controller false = none
    ∧ tegra_initialize_legacy_interrupt_controller true =
        some (0, (List.range TEGRA_ICTLR_COUNT).flatMap tegra_ictlr_init_writes)
    ∧ ∀ (s : IctlrState) (i : Nat), i < TEGRA_ICTLR_COUNT →
        applyWrites s ((List.range TEGRA_ICTLR_COUNT).flatMap tegra_ictlr_init_writes) i
          = ⟨0, 0⟩ := by
  refine ⟨rfl, rfl, ?_⟩
  intro s i hi
  rw [init_writes_apply, if_pos hi]

/-- C8: enabling an interrupt and immediately disabling it leaves that
interrupt's enable bit clear and every other line's enable bit in the same
instance exactly as it was before the pair of calls, from any starting
ictlr state. -/
theorem set_enable_round_trip (s : IctlrState) (irq : Nat)
    (h32 : NR_LOCAL_IRQS ≤ irq) (hU : irq < U32)
    (hcount : (irq - NR_LOCAL_IRQS) / TEGRA_IRQS_PER_ICTLR < TEGRA_ICTLR_COUNT) :
    ((setEnableState (setEnableState s irq true) irq false)
        ((irq - NR_LOCAL_IRQS) / TEGRA_IRQS_PER_ICTLR)).ier.testBit
        ((irq - NR_LOCAL_IRQS) % TEGRA_IRQS_PER_ICTLR) = false
    ∧ ∀ b, b < TEGRA_IRQS_PER_ICTLR →
        b ≠ (irq - NR_LOCAL_IRQS) % TEGRA_IRQS_PER_ICTLR →
        ((setEnableState (setEnableState s irq true) irq false)
            ((irq - NR_LOCAL_IRQS) / TEGRA_IRQS_PER_ICTLR)).ier.testBit b =
          (s ((irq - NR_LOCAL_IRQS) / TEGRA_IRQS_PER_ICTLR)).ier.testBit b := by
  have hbit : (irq - NR_LOCAL_IRQS) % TEGRA_IRQS_PER_ICTLR < 32 :=
    Nat.mod_lt _ (by norm_num [TEGRA_IRQS_PER_ICTLR])
  have h1 : setEnableState s irq true =
      applyWrite s ⟨(irq - NR_LOCAL_IRQS) / TEGRA_IRQS_PER_ICTLR, .ier_set,
        2 ^ ((irq - NR_LOCAL_IRQS) % TEGRA_IRQS_PER_ICTLR)⟩ :=
    setEnableState_some s irq true _ (set_enable_eq_true irq h32 hU hcount)
  have h2 : ∀ t : IctlrState, setEnableState t irq false =
      applyWrite t ⟨(irq - NR_LOCAL_IRQS) / TEGRA_IRQS_PER_ICTLR, .ier_clr,
        2 ^ ((irq - NR_LOCAL_IRQS) % TEGRA_IRQS_PER_ICTLR)⟩ := fun t =>
    setEnableState_some t irq false _ (set_enable_eq_false irq h32 hU hcount)
  constructor
  · rw [h2, h1, applyWrite_apply_self]
    exact writeReg_clr_testBit _ _ hbit
  · intro b hb32 hbne
    rw [h2, h1, applyWrite_apply_self,
      writeReg_clr_testBit_other _ _ _ hbit hb32 hbne, applyWrite_apply_self,
      writeReg_set_testBit_other _ _ _ hbit hb32 hbne]

/-- C8 witness: from a state with bits 0, 1 and 18 of instance 0 set,
enabling then disabling IRQ 50 clears bit 18 and preserves bits 0..17 and
19..31 of instance 0. -/
theorem set_enable_round_trip_witness :
    ((setEnableState (setEnableState (fun _ => ⟨2 ^ 18 + 3, 0⟩) 50 true) 50 false)
        ((50 - NR_LOCAL_IRQS) / TEGRA_IRQS_PER_ICTLR)).ier.testBit
        ((50 - NR_LOCAL_IRQS) % TEGRA_IRQS_PER_ICTLR) = false
    ∧ ∀ b, b < TEGRA_IRQS_PER_ICTLR →
        b ≠ (50 - NR_LOCAL_IRQS) % TEGRA_IRQS_PER_ICTLR →
        ((setEnableState (setEnableState (fun _ => ⟨2 ^ 18 + 3, 0⟩) 50 true) 50 false)
            ((50 - NR_LOCAL_IRQS) / TEGRA_IRQS_PER_ICTLR)).ier.testBit b =
          ((fun _ => (⟨2 ^ 18 + 3, 0⟩ : IctlrInstance))
              ((50 - NR_LOCAL_IRQS) / TEGRA_IRQS_PER_ICTLR)).ier.testBit b :=
  set_enable_round_trip (fun _ => ⟨2 ^ 18 + 3, 0⟩) 50
    (by decide) (by decide) (by decide)

/-- C9: enabling the same interrupt twice in a row yields exactly the same
ictlr state as enabling it once. -/
theorem set_enable_idempotent (s : IctlrState) (irq : Nat)
    (h32 : NR_LOCAL_IRQS ≤ irq) (hU : irq < U32)
    (hcount : (irq - NR_LOCAL_IRQS) / TEGRA_IRQS_PER_ICTLR < TEGRA_ICTLR_COUNT) :
    setEnableState (setEnableState s irq true) irq true = setEnableState s irq true := by
  have h1 : setEnableState s irq true =
      applyWrite s ⟨(irq - NR_LOCAL_IRQS) / TEGRA_IRQS_PER_ICTLR, .ier_set,
        2 ^ ((irq - NR_LOCAL_IRQS) % TEGRA_IRQS_PER_ICTLR)⟩ :=
    setEnableState_some s irq true _ (set_enable_eq_true irq h32 hU hcount)
  rw [h1, setEnableState_some _ irq true _ (set_enable_eq_true irq h32 hU hcount),
    applyWrite_idem]

/-- C9 witness: enabling IRQ 50 twice from the all-zero state equals
enabling it once. -/
theorem set_enable_idempotent_witness :
    setEnableState (setEnableState (fun _ => ⟨0, 0⟩) 50 true) 50 true =
      setEnableState (fun _ => ⟨0, 0⟩) 50 true :=
  set_enable_idempotent (fun _ => ⟨0, 0⟩) 50 (by decide) (by decide) (by decide)

/-- C10: every successful `tegra_ictlr_set_interrupt_enable` call writes
exactly one register of exactly one instance — every other instance is
untouched and the targeted instance's class register keeps its value — and
consequently no sequence of routing calls (to the hypervisor or to guests)
ever changes any instance's interrupt-class register. -/
theorem set_enable_frame :
    (∀ (s : IctlrState) (irq : Nat) (enabled : Bool) (w : RegWrite),
      tegra_ictlr_set_interrupt_enable true irq enabled = some w →
        (∀ n, n ≠ w.ictlr_number → applyWrite s w n = s n)
        ∧ (applyWrite s w w.ictlr_number).iep_class = (s w.ictlr_number).iep_class)
    ∧ (∀ (calls : List RouteCall) (s : IctlrState) (n : Nat),
        (runRouting s calls n).iep_class = (s n).iep_class)
    ∧ (∀ (calls : List RouteCall) (s : IctlrState) (n : Nat), n < TEGRA_ICTLR_COUNT →
        (runRouting
            (applyWrites s ((List.range TEGRA_ICTLR_COUNT).flatMap tegra_ictlr_init_writes))
            calls n).iep_class = 0) := by
  have hrun : ∀ (calls : List RouteCall) (s : IctlrState) (n : Nat),
      (runRouting s calls n).iep_class = (s n).iep_class := by
    intro calls
    induction calls with
    | nil => intro s n; rfl
    | cons c rest ih =>
      intro s n
      show (runRouting (applyEvents s (routeTrace c)) rest n).iep_class = (s n).iep_class
      rw [ih (applyEvents s (routeTrace c)) n, routeTrace_class]
  refine ⟨?_, hrun, ?_⟩
  · intro s irq enabled w hw
    refine ⟨fun n hn => applyWrite_other s w n hn, ?_⟩
    rw [applyWrite_self]
    cases hr : w.reg
    · rfl
    · rfl
    · exact absurd hr (set_enable_reg_ne_class true irq enabled w hw)
  · intro calls s n hn
    rw [hrun, init_writes_apply, if_pos hn]

/-- C6 witness: IRQ 224 (instance index 6, one past the instance count)
hits the fatal path even with the window mapped. -/
theorem set_enable_assert_fatal_witness :
    tegra_ictlr_set_interrupt_enable true 224 true = none :=
  set_enable_assert_fatal true 224 true (by right; right; decide)

end Tegra
